import Mathlib

/-!
# LoLa — Web Agent: verification of the bounded tool-orchestration core

Shallow embedding of the LoLa repository (TypeScript) in Lean 4.

Embedded from the source files:
* `src/main.ts` (`runJob`, the CLI line handler, `main` startup) — here `runJob`,
  `cliHandleLine`, `mainStartup`;
* `src/agent` (`createLLM`) — here `createLLM`;
* `src/integrations/telegram.ts` (`TelegramBotHandler`) — here `getOrCreateSession`,
  `telegramDispatch`, `splitReply` and the event model `arriveStep` / `finishStep`;
* `src/tools/browser-tools.ts` (`browser_goto`, `browser_click`, `browser_right_click`) —
  here `gotoTool`, `clickTool`, `rightClickTool`.

Two components of the repository are not present under the sources available here and
are modelled from the specification instead (their doc comments say so): the
conversation memory store (`src/memory`) and the LangGraph agent graph (`src/agent`,
`createGraph`), i.e. the Step-Loop.

JavaScript strings are modelled as Lean `String` / `List Char`; the JS string
operations used by the source (`trim`, `startsWith`, regexp matching) are defined
below over `List Char` so that every definition evaluates inside the kernel.
-/

/-! ## Data model: conversation turns -/

/-- Message role, as in the LangChain message classes used by the source
(`HumanMessage`, `AIMessage`, `ToolMessage`). -/
inductive Role
  | user
  | assistant
  | toolResult
deriving DecidableEq

/-- One message of a conversation: a role and a textual content. -/
structure Turn where
  role : Role
  content : String
deriving DecidableEq

/-! ## Text helpers (models of the JS string operations used by the source) -/

/-- The characters the JS regexp dot `.` does not match (line terminators):
newline, carriage return, U+2028, U+2029. -/
def isLineTerminator (c : Char) : Bool :=
  c = '\n' || c = '\r' || c = Char.ofNat 0x2028 || c = Char.ofNat 0x2029

/-- ASCII whitespace, for the model of `String.prototype.trim`. -/
def isWsChar (c : Char) : Bool :=
  c = ' ' || c = '\t' || c = '\n' || c = '\r'

/-- Model of JS `s.trim()`: remove whitespace from both ends. -/
def trimChars (l : List Char) : List Char :=
  ((l.dropWhile isWsChar).reverse.dropWhile isWsChar).reverse

/-- Model of testing a JS string against an unanchored literal regexp such as
`/\/start/`: does `pat` occur as a contiguous substring? -/
def hasSub (pat : List Char) : List Char → Bool
  | [] => pat.isPrefixOf []
  | c :: rest => pat.isPrefixOf (c :: rest) || hasSub pat rest

/-- Model of JS `text.startsWith("/")`. -/
def startsWithSlash (s : List Char) : Bool :=
  match s with
  | [] => false
  | c :: _ => c = '/'

/-! ## Conversation memory store -/

/-- Modelled from the spec: the repository file `src/memory/index.ts`
(`MemoryStore`) is not among the available sources; §4.1 of the spec gives its
contract: a bounded ordered log with `append` (FIFO eviction of the oldest turns
when capacity is exceeded), `all`, `count` and `clear`. -/
structure MemoryStore where
  capacity : Nat
  messages : List Turn
deriving DecidableEq

/-- Modelled from the spec: `new MemoryStore(cap)` — empty store with the given
capacity (`main.ts` and `telegram.ts` both construct `new MemoryStore(50)`). -/
def MemoryStore.new (cap : Nat) : MemoryStore :=
  ⟨cap, []⟩

/-- Modelled from the spec: `addMessages` appends in order at the tail and evicts
the oldest turns first when the capacity would be exceeded (§4.1). -/
def MemoryStore.addMessages (s : MemoryStore) (new : List Turn) : MemoryStore :=
  let all := s.messages ++ new
  ⟨s.capacity, all.drop (all.length - s.capacity)⟩

/-- `getMessages` — the current ordered history. -/
def MemoryStore.getMessages (s : MemoryStore) : List Turn :=
  s.messages

/-- `getMessageCount` — the current length. -/
def MemoryStore.getMessageCount (s : MemoryStore) : Nat :=
  s.messages.length

/-- `clear` — empties the store. -/
def MemoryStore.clear (s : MemoryStore) : MemoryStore :=
  ⟨s.capacity, []⟩

/-! ## Step-Loop (agent cycle) -/

/-- One tool invocation request issued by the planner: tool name and argument text. -/
structure ToolRequest where
  name : String
  args : String
deriving DecidableEq

/-- Modelled from the spec: one planner (Think) response — either a final textual
answer or an assistant message carrying tool invocation requests (§4.3, §6). -/
inductive PlannerStep
  | final (text : String)
  | toolCalls (text : String) (reqs : List ToolRequest)

/-- The tool registry: named capabilities mapping argument text to a textual result. -/
abbrev ToolRegistry := List (String × (String → String))

/-- Modelled from the spec: Act looks the requested name up in the registry and
executes it; an unknown tool name produces an error observation, not a crash (§8). -/
def execTool (reg : ToolRegistry) (r : ToolRequest) : String :=
  match List.lookup r.name reg with
  | some h => h r.args
  | none => "ERROR: unknown tool " ++ r.name

/-- Modelled from the spec: the bounded Think/Act/Observe state machine of §4.3
(the repository file `src/agent` defining `createGraph` is not among the available
sources). `fuel` is the remaining step budget, `steps` the number of completed
planner round-trips. Each Think that requests tools appends the assistant turn and
one tool-result turn per request, then cycles; a final answer or an exhausted
budget ends the loop. A planner failure is a job-level error (§7). The result is
the full turn sequence plus the number of cycles used. -/
def stepLoopAux (planner : List Turn → Except String PlannerStep) (reg : ToolRegistry) :
    Nat → List Turn → Nat → Except String (List Turn × Nat)
  | 0, turns, steps => Except.ok (turns, steps)
  | fuel + 1, turns, steps =>
    match planner turns with
    | Except.error e => Except.error e
    | Except.ok (PlannerStep.final t) =>
        Except.ok (turns ++ [⟨Role.assistant, t⟩], steps + 1)
    | Except.ok (PlannerStep.toolCalls t reqs) =>
        stepLoopAux planner reg fuel
          (turns ++ ⟨Role.assistant, t⟩ :: reqs.map (fun r => ⟨Role.toolResult, execTool reg r⟩))
          (steps + 1)

/-- Modelled from the spec: `graph.invoke(initial, { recursionLimit: limit })` —
run the Step-Loop on the initial turn sequence and return the full resulting
sequence (§4.3 output contract). -/
def graphInvoke (planner : List Turn → Except String PlannerStep) (reg : ToolRegistry)
    (limit : Nat) (initial : List Turn) : Except String (List Turn) :=
  match stepLoopAux planner reg limit initial 0 with
  | Except.error e => Except.error e
  | Except.ok (turns, _) => Except.ok turns

/-! ## Job runner (`runJob`, src/main.ts lines 18-64; the Telegram `runJob` in
`telegram.ts` lines 245-282 is the same algorithm) -/

/-- The input turn sequence of a job: prior history plus the new user turn. -/
def jobInput (store : MemoryStore) (userText : String) : List Turn :=
  store.getMessages ++ [⟨Role.user, userText⟩]

/-- `runJob`: read the history and its length, invoke the graph on
history + new user turn, append only the new suffix (`result.messages.slice(previousCount)`,
guarded by `newMessages.length > 0`), and return the content of the last returned
turn (`finalMsg?.content ?? ""`). A thrown graph error propagates. -/
def runJob (userText : String) (g : List Turn → Except String (List Turn))
    (store : MemoryStore) : Except String (MemoryStore × String) :=
  let previousMessages := store.getMessages
  let previousCount := previousMessages.length
  let initial := previousMessages ++ [⟨Role.user, userText⟩]
  match g initial with
  | Except.error e => Except.error e
  | Except.ok result =>
    let newMessages := result.drop previousCount
    let store2 := if 0 < newMessages.length then store.addMessages newMessages else store
    let out :=
      match result.getLast? with
      | some t => t.content
      | none => ""
    Except.ok (store2, out)

/-- Instrumentation of `runJob`: how many `addMessages` calls it performs
(the call at main.ts line 58 runs only when `newMessages.length > 0`, and is not
reached when `graph.invoke` throws). -/
def runJobAppendCalls (userText : String) (g : List Turn → Except String (List Turn))
    (store : MemoryStore) : Nat :=
  let previousCount := store.getMessages.length
  match g (jobInput store userText) with
  | Except.error _ => 0
  | Except.ok result => if 0 < (result.drop previousCount).length then 1 else 0

/-! ## CLI line handler (`rl.on("line", ...)`, src/main.ts lines 94-119) -/

/-- The CLI line handler: trim; ignore empty lines; `/clear` and `/reset` clear the
store; `/memory` and `/stats` report the count; anything else runs a job, printing
the result, or `Job error: ...` when the job throws (the store is then untouched).
The returned list holds the console outputs (banner lines elided). -/
def cliHandleLine (g : List Turn → Except String (List Turn)) (store : MemoryStore)
    (line : String) : MemoryStore × List String :=
  let task := trimChars line.data
  if task = [] then (store, [])
  else if task = "/clear".data ∨ task = "/reset".data then
    ( MemoryStore.clear store, ["✓ Conversation history cleared."])
  else if task = "/memory".data ∨ task = "/stats".data then
    (store, ["Memory: " ++ toString (MemoryStore.getMessageCount store) ++ " messages stored"])
  else
    match runJob (String.mk task) g store with
    | Except.ok (store2, out) => (store2, [out])
    | Except.error e => (store, ["Job error: " ++ e])

/-! ## Startup and configuration (`createLLM`, src/agent lines 12-30; `main`,
src/main.ts lines 66-132) -/

/-- The process environment variables the startup path reads. -/
structure Env where
  openaiApiKeyVar : Option String
  telegramBotTokenVar : Option String

/-- The configured planner client (`new ChatOpenAI({ model: "gpt-4o", ... })`). -/
structure LLM where
  model : String
deriving DecidableEq

/-- The error message thrown by `createLLM` when the key is missing. The source
message continues with per-OS shell examples (they contain shell quoting);
only the shown remediation lines matter to the claims. -/
def openAIKeyMissingMsg : String :=
  "OPENAI_API_KEY is required.\nCreate a .env file in the project root with: OPENAI_API_KEY=your-key-here\nOr set it as an environment variable."

/-- `createLLM`: `if (!apiKey) throw new Error(...)` — JS truthiness, so an unset
variable and an empty string both throw; otherwise the client is built. -/
def createLLM (env : Env) : Except String LLM :=
  match env.openaiApiKeyVar with
  | none => Except.error openAIKeyMissingMsg
  | some k => if k = "" then Except.error openAIKeyMissingMsg else Except.ok ⟨"gpt-4o"⟩

/-- The process state after a successful startup, ready to accept input. -/
inductive Mode
  | cli (llm : LLM) (store : MemoryStore)
  | telegram (llm : LLM)

/-- CLI startup (src/main.ts lines 80-92): build browser tools, `createLLM` (may
throw), graph, `new MemoryStore(50)`, then open the readline interface. An error
surfaces before any line is read. -/
def cliStart (env : Env) : Except String Mode :=
  match createLLM env with
  | Except.error e => Except.error e
  | Except.ok llm => Except.ok (Mode.cli llm (MemoryStore.new 50))

/-- Telegram startup (`new TelegramBotHandler(token)`, telegram.ts lines 225-233):
the constructor calls `createLLM` before `setupHandlers`, so on a missing key no
message handler is ever registered and `main().catch` exits the process. -/
def telegramStart (env : Env) : Except String Mode :=
  match createLLM env with
  | Except.error e => Except.error e
  | Except.ok llm => Except.ok (Mode.telegram llm)

/-- `main` (src/main.ts lines 66-127): `useTelegram = !!telegramToken` (JS
truthiness: unset or empty token selects CLI mode). -/
def mainStartup (env : Env) : Except String Mode :=
  match env.telegramBotTokenVar with
  | some tok => if tok = "" then cliStart env else telegramStart env
  | none => cliStart env

/-! ## Browser tools (src/tools/browser-tools.ts)

Each Playwright page operation is modelled as an oracle that either yields a value
or throws (`Except.error`). A tool handler value of `Except.error e` means the
exception `e` escaped the handler into the caller (the Step-Loop); `Except.ok s`
means the handler returned the observation string `s`. -/

/-- Behaviour of the shared browser resource: the outcome of each page operation
used by the embedded tools, keyed by selector or URL. -/
structure PageBehavior where
  ensure : Except String Unit
  gotoPage : String → Except String Unit
  titleOf : Except String String
  waitForSelector : String → Except String Unit
  query : String → Except String Bool
  isVisible : String → Except String Bool
  click : String → Except String Unit
  rightClick : String → Except String Unit

/-- `browser_goto` (lines 13-33): `ensure`, `page.goto`, `page.title` — no
try/catch anywhere in the handler, so any failure propagates. -/
def gotoTool (pb : PageBehavior) (url : String) : Except String String := do
  pb.ensure
  pb.gotoPage url
  let title ← pb.titleOf
  pure ("Navigated to " ++ url ++ ". Title: " ++ title ++
    ". Check for popups using browser_check_popups if needed.")

/-- The body of the `try` block of `browser_click` (lines 40-72):
`waitForSelector`, `page.$`, `isVisible`, `page.click`; the not-found and
not-visible cases return ERROR strings without throwing. -/
def clickTryBody (pb : PageBehavior) (selector : String) : Except String String := do
  pb.waitForSelector selector
  let found ← pb.query selector
  if !found then
    pure ("ERROR: Element not found: " ++ selector ++
      ". Use browser_find_links or browser_find_by_text to find the correct selector.")
  else do
    let vis ← pb.isVisible selector
    if !vis then
      pure ("ERROR: Element exists but is not visible: " ++ selector ++
        ". The element might be hidden or require scrolling.")
    else do
      pb.click selector
      pure ("Successfully clicked: " ++ selector)

/-- `browser_click` (lines 35-81): `ensure` runs before the `try`; everything else
is inside `try ... catch`, whose handler returns a descriptive ERROR string. -/
def clickTool (pb : PageBehavior) (selector : String) : Except String String := do
  pb.ensure
  match clickTryBody pb selector with
  | Except.ok msg => pure msg
  | Except.error e =>
    pure ("ERROR clicking " ++ selector ++ ": " ++ e ++
      ". Try using browser_find_by_text to find the element by its text content, or browser_find_links to see all clickable links.")

/-- `browser_right_click` (lines 83-98): `ensure`, `page.click(selector, { button:
"right" })` — no try/catch, so a click failure propagates. -/
def rightClickTool (pb : PageBehavior) (selector : String) : Except String String := do
  pb.ensure
  pb.rightClick selector
  pure ("Right-clicked selector: " ++ selector)

/-! ## Telegram integration (src/integrations/telegram.ts) -/

/-- A per-user session: its memory store (the per-session graph instance carries
no state of its own and is omitted). -/
structure UserSession where
  memoryStore : MemoryStore
deriving DecidableEq

/-- The `sessions: Map<number, UserSession>` of `TelegramBotHandler`, as an
association list keyed by the numeric chat id. -/
abbrev Sessions := List (Nat × UserSession)

/-- `getOrCreateSession` (lines 235-243): return the existing session, or create
one with a fresh `new MemoryStore(50)` and register it. -/
def getOrCreateSession (sessions : Sessions) (userId : Nat) : UserSession × Sessions :=
  match List.lookup userId sessions with
  | some s => (s, sessions)
  | none => (⟨MemoryStore.new 50⟩, (userId, ⟨MemoryStore.new 50⟩) :: sessions)

/-- Replace the session stored under `id` (the model of mutating the session
object held in the map). -/
def setSession : Sessions → Nat → UserSession → Sessions
  | [], id, s => [(id, s)]
  | (k, v) :: rest, id, s =>
    if k = id then (id, s) :: rest else (k, v) :: setSession rest id s

/-- The `/start` welcome text (lines 288-295; abbreviated — the claims only use
that a reply is sent). -/
def telegramWelcome : String :=
  "LoLa Agent Bot. Commands: /start /clear /memory /help. Just send me a task!"

/-- The `/help` text (lines 303-311; abbreviated likewise). -/
def telegramHelp : String :=
  "Available Commands: /start /clear /memory /help."

/-- The continuation marker appended to every chunk but the last (line 360). -/
def continuationMark : String := "\n\n_(continued...)_"

/-- One pass of `response.match(/.{1,4000}/g)`: at each position the regexp
engine greedily matches up to `limit` non-line-terminator characters, and skips a
character no match can start at. `fuel` bounds the recursion structurally; each
step consumes at least one character, so `fuel = s.length` is enough. -/
def dotChunksGo (limit : Nat) : Nat → List Char → List (List Char)
  | 0, _ => []
  | _ + 1, [] => []
  | fuel + 1, c :: rest =>
    if isLineTerminator c then dotChunksGo limit fuel rest
    else
      ((c :: rest.takeWhile (fun x => !isLineTerminator x)).take limit)
        :: dotChunksGo limit fuel
            ((c :: rest).drop ((c :: rest.takeWhile (fun x => !isLineTerminator x)).take limit).length)

/-- `response.match(/.{1,4000}/g) || []`: the list of matched chunks. -/
def dotChunks (s : List Char) : List (List Char) :=
  dotChunksGo 4000 s.length s

/-- The loop of lines 357-363: each chunk but the last gets the continuation
marker appended. -/
def markChunks : List (List Char) → List String
  | [] => []
  | [c] => [String.mk c]
  | c :: c2 :: rest => (String.mk c ++ continuationMark) :: markChunks (c2 :: rest)

/-- Lines 354-366: a response over 4096 characters is split into the marked
chunks; otherwise it is sent as a single message. -/
def splitReply (response : String) : List String :=
  if 4096 < response.length then markChunks (dotChunks response.data)
  else [response]

/-- The `/start` handler (telegram.ts lines 286-298): fires whenever the
unanchored regexp `/\\/start/` matches anywhere in the text. `acc` is the pair of
the current session map and the replies sent so far. -/
def handleStart (text : String) (acc : Sessions × List String) : Sessions × List String :=
  if hasSub "/start".data text.data then (acc.1, acc.2 ++ [telegramWelcome]) else acc

/-- The `/help` handler (lines 301-314). -/
def handleHelp (text : String) (acc : Sessions × List String) : Sessions × List String :=
  if hasSub "/help".data text.data then (acc.1, acc.2 ++ [telegramHelp]) else acc

/-- The `/clear` and `/reset` handler (lines 317-322): resolves the session and
empties its store. -/
def handleClear (chatId : Nat) (text : String) (acc : Sessions × List String) :
    Sessions × List String :=
  if hasSub "/clear".data text.data || hasSub "/reset".data text.data then
    let p := getOrCreateSession acc.1 chatId
    (setSession p.2 chatId ⟨MemoryStore.clear p.1.memoryStore⟩,
      acc.2 ++ ["✓ Conversation history cleared."])
  else acc

/-- The `/memory` and `/stats` handler (lines 325-330). -/
def handleMemory (chatId : Nat) (text : String) (acc : Sessions × List String) :
    Sessions × List String :=
  if hasSub "/memory".data text.data || hasSub "/stats".data text.data then
    let p := getOrCreateSession acc.1 chatId
    (p.2, acc.2 ++
      ["Memory: " ++ toString (MemoryStore.getMessageCount p.1.memoryStore) ++ " messages stored"])
  else acc

/-- The generic `message` handler (lines 333-374): ignores `/`-prefixed text,
rejects empty text, and otherwise resolves the session, runs the job on its
store and sends the split reply; a thrown job error yields an error reply and no
memory write. -/
def handleMessage (g : List Turn → Except String (List Turn)) (chatId : Nat)
    (text : String) (acc : Sessions × List String) : Sessions × List String :=
  if startsWithSlash text.data then acc
  else if trimChars text.data = [] then
    (acc.1, acc.2 ++ ["Please send me a text message with your task."])
  else
    let p := getOrCreateSession acc.1 chatId
    match runJob text g p.1.memoryStore with
    | Except.ok (store2, out) => (setSession p.2 chatId ⟨store2⟩, acc.2 ++ splitReply out)
    | Except.error e => (p.2, acc.2 ++ ["Error: " ++ e])

/-- The full per-message dispatch of `setupHandlers` (lines 284-374): every
registered handler whose trigger matches the incoming text runs. Returns the
updated session map and the list of messages sent to the chat. -/
def telegramDispatch (g : List Turn → Except String (List Turn)) (st : Sessions)
    (chatId : Nat) (text : String) : Sessions × List String :=
  handleMessage g chatId text
    (handleMemory chatId text
      (handleClear chatId text
        (handleHelp text
          (handleStart text (st, [])))))

/-! ## Concurrency model of the Telegram message handler

The `message` handler (lines 333-374) is an `async` callback with no per-chat
queue, lock or busy flag (`TelegramBotHandler` has no such field). Its execution
splits at the `await graph.invoke(...)` suspension point inside `runJob`: the part
before it reads the history and its length; the continuation slices and appends.
Between the two, the event loop may run other handler invocations. The model
makes the two halves explicit steps and lets events interleave. -/

/-- A job that has read its history snapshot and is suspended in `graph.invoke`. -/
structure PendingJob where
  chatId : Nat
  prevCount : Nat
  input : List Turn
deriving DecidableEq

/-- The handler state: the session map and the jobs suspended in `graph.invoke`. -/
structure BotState where
  sessions : Sessions
  pending : List PendingJob
deriving DecidableEq

/-- A task message arrives (lines 333-352 up to the `await graph.invoke` inside
`runJob`): command and empty texts take the early returns; otherwise the session
is resolved and the job starts unconditionally — nothing checks for an in-flight
job for the same chat. -/
def arriveStep (st : BotState) (chatId : Nat) (text : String) : BotState :=
  if startsWithSlash text.data then st
  else if trimChars text.data = [] then st
  else
    let p := getOrCreateSession st.sessions chatId
    { sessions := p.2,
      pending := st.pending ++
        [⟨chatId, (MemoryStore.getMessages p.1.memoryStore).length,
          (MemoryStore.getMessages p.1.memoryStore) ++ [⟨Role.user, text⟩]⟩] }

/-- The `graph.invoke` of the `k`-th pending job resolves with `g` applied to its
recorded input; the continuation of `runJob` (lines 55-59 of main.ts, identically
telegram.ts lines 275-278) slices with the recorded count and appends. -/
def finishStep (g : List Turn → List Turn) (st : BotState) (k : Nat) : BotState :=
  match st.pending[k]? with
  | none => st
  | some j =>
    let p := getOrCreateSession st.sessions j.chatId
    let result := g j.input
    let newMessages := result.drop j.prevCount
    let store2 :=
      if 0 < newMessages.length then MemoryStore.addMessages p.1.memoryStore newMessages
      else p.1.memoryStore
    { sessions := setSession p.2 j.chatId ⟨store2⟩,
      pending := st.pending.eraseIdx k }

/-- An event of the interleaving semantics. -/
inductive BotEvent
  | arrive (chatId : Nat) (text : String)
  | finish (k : Nat)

/-- Run a sequence of events. -/
def runEvents (g : List Turn → List Turn) (evts : List BotEvent) (st : BotState) : BotState :=
  match evts with
  | [] => st
  | BotEvent.arrive c t :: rest => runEvents g rest (arriveStep st c t)
  | BotEvent.finish k :: rest => runEvents g rest (finishStep g st k)

/-- How many jobs are in flight for a given chat identity. -/
def inFlightFor (st : BotState) (c : Nat) : Nat :=
  (st.pending.filter (fun j => j.chatId = c)).length

/-! ## Concrete instances used by witnesses and counterexamples -/

/-- A page behaviour whose click operations time out (Playwright raises
`TimeoutError` when the selector never becomes actionable). -/
def timeoutBehavior : PageBehavior where
  ensure := Except.ok ()
  gotoPage := fun _ => Except.error "net::ERR_NAME_NOT_RESOLVED"
  titleOf := Except.ok "Example"
  waitForSelector := fun _ => Except.error "Timeout 10000ms exceeded."
  query := fun _ => Except.ok false
  isVisible := fun _ => Except.ok false
  click := fun _ => Except.error "Timeout 15000ms exceeded."
  rightClick := fun _ => Except.error "Timeout 15000ms exceeded."

/-- A planner that always requests one more tool call and never answers. -/
def loopingPlanner : List Turn → Except String PlannerStep :=
  fun _ => Except.ok (PlannerStep.toolCalls "investigating" [⟨"browser_goto", "url"⟩])

/-- A graph behaviour that echoes its input and appends one assistant turn. -/
def echoGraph : List Turn → Except String (List Turn) :=
  fun ts => Except.ok (ts ++ [⟨Role.assistant, "done"⟩])

/-- A graph behaviour whose invocation throws. -/
def boomGraph : List Turn → Except String (List Turn) :=
  fun _ => Except.error "boom"

/-- The pure graph function used by the interleaving counterexample. -/
def pureEchoGraph : List Turn → List Turn :=
  fun ts => ts ++ [⟨Role.assistant, "done"⟩]

/-- An environment with the planner credential set to the empty string and an
environment with it absent. -/
def envEmptyKey : Env := ⟨some "", none⟩

/-- An environment without the planner credential. -/
def envNoKey : Env := ⟨none, none⟩

/-- An environment with a usable planner credential. -/
def envWithKey : Env := ⟨some "sk-test", none⟩

/-- A 4099-character response containing a newline: longer than the 4096-character
Telegram limit, so the splitting path runs on it. -/
def longNewlineResponse : String :=
  String.mk (List.replicate 4097 'a' ++ ['\n', 'b'])

/-! ## Helper lemmas -/

theorem addMessages_capacity (s : MemoryStore) (new : List Turn) :
    (MemoryStore.addMessages s new).capacity = s.capacity := rfl

theorem addMessages_count (s : MemoryStore) (new : List Turn) :
    MemoryStore.getMessageCount (MemoryStore.addMessages s new) =
      min (MemoryStore.getMessages s ++ new).length s.capacity := by
  simp [MemoryStore.addMessages, MemoryStore.getMessageCount, MemoryStore.getMessages]
  omega

theorem addMessages_suffix (s : MemoryStore) (new : List Turn) :
    MemoryStore.getMessages (MemoryStore.addMessages s new) <:+
      MemoryStore.getMessages s ++ new :=
  List.drop_suffix _ _

theorem suffix_append_right {α : Type} {l h : List α} (d : List α) (hs : l <:+ h) :
    l ++ d <:+ h ++ d := by
  obtain ⟨t, rfl⟩ := hs
  exact ⟨t, (List.append_assoc t l d).symm⟩

theorem addMessages_suffix_of (s : MemoryStore) (h : List Turn) (new : List Turn)
    (hs : MemoryStore.getMessages s <:+ h) :
    MemoryStore.getMessages (MemoryStore.addMessages s new) <:+ h ++ new :=
  (addMessages_suffix s new).trans (suffix_append_right new hs)

theorem addMessages_nil (s : MemoryStore)
    (h : MemoryStore.getMessageCount s ≤ s.capacity) :
    MemoryStore.addMessages s [] = s := by
  cases s with
  | mk cap msgs =>
    simp [MemoryStore.getMessageCount] at h
    have h0 : msgs.length - cap = 0 := by omega
    simp [MemoryStore.addMessages, h0]

theorem foldl_addMessages_suffix (deltas : List (List Turn)) :
    ∀ (s : MemoryStore) (h : List Turn), MemoryStore.getMessages s <:+ h →
      MemoryStore.getMessages (deltas.foldl MemoryStore.addMessages s) <:+
        h ++ deltas.flatten := by
  induction deltas with
  | nil => intro s h hs; simpa using hs
  | cons d ds ih =>
    intro s h hs
    have h1 := ih (MemoryStore.addMessages s d) (h ++ d) (addMessages_suffix_of s h d hs)
    simpa [List.append_assoc] using h1

theorem foldl_addMessages_capacity (deltas : List (List Turn)) :
    ∀ s : MemoryStore, (deltas.foldl MemoryStore.addMessages s).capacity = s.capacity := by
  induction deltas with
  | nil => intro s; rfl
  | cons d ds ih => intro s; simpa using ih (MemoryStore.addMessages s d)

theorem foldl_addMessages_count (deltas : List (List Turn)) :
    ∀ s : MemoryStore, MemoryStore.getMessageCount s ≤ s.capacity →
      MemoryStore.getMessageCount (deltas.foldl MemoryStore.addMessages s) ≤ s.capacity := by
  induction deltas with
  | nil => intro s hs; simpa using hs
  | cons d ds ih =>
    intro s hs
    have h1 : MemoryStore.getMessageCount (MemoryStore.addMessages s d) ≤
        (MemoryStore.addMessages s d).capacity := by
      rw [addMessages_count, addMessages_capacity]
      omega
    simpa [addMessages_capacity] using ih (MemoryStore.addMessages s d) h1

/-! ## Claim C3 -/

/-- C3: after any number of appends (one per job, §4.4), the store of capacity 50
holds at most 50 turns, its contents are a contiguous suffix of the full
concatenated history (so eviction is oldest-first, never from the middle or end),
and a single append keeps exactly the newest `min (length, capacity)` turns. -/
theorem claim_c3_memory_bound (deltas : List (List Turn)) :
    MemoryStore.getMessageCount (deltas.foldl MemoryStore.addMessages (MemoryStore.new 50)) ≤ 50
    ∧ MemoryStore.getMessages (deltas.foldl MemoryStore.addMessages (MemoryStore.new 50)) <:+
        deltas.flatten
    ∧ ∀ (s : MemoryStore) (new : List Turn),
        MemoryStore.getMessages (MemoryStore.addMessages s new) <:+
            MemoryStore.getMessages s ++ new
        ∧ MemoryStore.getMessageCount (MemoryStore.addMessages s new) =
            min (MemoryStore.getMessages s ++ new).length s.capacity := by
  refine ⟨?_, ?_, fun s new => ⟨addMessages_suffix s new, addMessages_count s new⟩⟩
  · exact foldl_addMessages_count deltas (MemoryStore.new 50) (by simp [MemoryStore.new, MemoryStore.getMessageCount])
  · simpa using foldl_addMessages_suffix deltas (MemoryStore.new 50) [] (by simp [MemoryStore.new, MemoryStore.getMessages])

/-! ## Claim C4 -/

/-- C4: on a successful job, `runJob` appends to the store exactly the suffix of
the returned sequence from index `N` (the pre-job history length) onward, and
returns the content of the last returned turn (the empty string when there is
none). -/
theorem claim_c4_delta_slicing (g : List Turn → Except String (List Turn))
    (store : MemoryStore) (userText : String) (result : List Turn)
    (hok : g (jobInput store userText) = Except.ok result)
    (hcap : MemoryStore.getMessageCount store ≤ store.capacity) :
    runJob userText g store =
      Except.ok
        (MemoryStore.addMessages store (result.drop (MemoryStore.getMessageCount store)),
          match result.getLast? with
          | some t => t.content
          | none => "") := by
  have hN : MemoryStore.getMessageCount store = (MemoryStore.getMessages store).length := rfl
  simp only [runJob, jobInput] at *
  rw [hok]
  dsimp only
  by_cases hnew : 0 < (result.drop (MemoryStore.getMessages store).length).length
  · rw [if_pos hnew, hN]
  · have hnil : result.drop (MemoryStore.getMessages store).length = [] := by
      cases hd : result.drop (MemoryStore.getMessages store).length with
      | nil => rfl
      | cons a l => rw [hd] at hnew; simp at hnew
    rw [if_neg hnew, hN, hnil, addMessages_nil store hcap]

/-- Witness for C4 at a concrete graph behaviour, store and user text. -/
theorem claim_c4_delta_slicing_witness :
    runJob "go" echoGraph (MemoryStore.new 50) =
      Except.ok
        (MemoryStore.addMessages (MemoryStore.new 50)
            (([(⟨Role.user, "go"⟩ : Turn), ⟨Role.assistant, "done"⟩]).drop
              (MemoryStore.getMessageCount (MemoryStore.new 50))),
          match ([(⟨Role.user, "go"⟩ : Turn), ⟨Role.assistant, "done"⟩]).getLast? with
          | some t => t.content
          | none => "") :=
  claim_c4_delta_slicing echoGraph (MemoryStore.new 50) "go"
    [⟨Role.user, "go"⟩, ⟨Role.assistant, "done"⟩] rfl (by decide)

/-! ## Step-Loop lemmas -/

theorem stepLoopAux_growth (planner : List Turn → Except String PlannerStep)
    (reg : ToolRegistry) :
    ∀ (fuel : Nat) (turns : List Turn) (steps : Nat) (out : List Turn) (n : Nat),
      stepLoopAux planner reg fuel turns steps = Except.ok (out, n) →
      turns <+: out ∧ (0 < fuel → turns.length < out.length) := by
  intro fuel
  induction fuel with
  | zero =>
    intro turns steps out n h
    simp only [stepLoopAux] at h
    obtain ⟨rfl, rfl⟩ : turns = out ∧ steps = n := by
      simpa [Prod.ext_iff] using h
    exact ⟨List.prefix_rfl, by omega⟩
  | succ fuel ih =>
    intro turns steps out n h
    simp only [stepLoopAux] at h
    cases hp : planner turns with
    | error e => rw [hp] at h; exact absurd h (by simp)
    | ok step =>
      rw [hp] at h
      cases step with
      | final t =>
        obtain ⟨rfl, rfl⟩ : turns ++ [⟨Role.assistant, t⟩] = out ∧ steps + 1 = n := by
          simpa [Prod.ext_iff] using h
        exact ⟨ List.prefix_append _ _, fun _ => by simp⟩
      | toolCalls t reqs =>
        have h2 := ih _ _ _ _ h
        refine ⟨( List.prefix_append _ _).trans h2.1, fun _ => ?_⟩
        have h3 := h2.1.length_le
        simp at h3 ⊢
        omega

theorem stepLoopAux_no_final (planner : List Turn → Except String PlannerStep)
    (reg : ToolRegistry)
    (hp : ∀ ts, ∃ t reqs, planner ts = Except.ok (PlannerStep.toolCalls t reqs)) :
    ∀ (fuel : Nat) (turns : List Turn) (steps : Nat),
      ∃ out, stepLoopAux planner reg fuel turns steps = Except.ok (out, steps + fuel)
        ∧ turns <+: out ∧ (0 < fuel → turns.length < out.length) := by
  intro fuel
  induction fuel with
  | zero =>
    intro turns steps
    exact ⟨turns, by simp [stepLoopAux], List.prefix_rfl, by omega⟩
  | succ fuel ih =>
    intro turns steps
    obtain ⟨t, reqs, he⟩ := hp turns
    obtain ⟨out, hout, hpre, hlen⟩ :=
      ih (turns ++ ⟨Role.assistant, t⟩ :: reqs.map (fun r => ⟨Role.toolResult, execTool reg r⟩))
        (steps + 1)
    refine ⟨out, ?_, ( List.prefix_append _ _).trans hpre, fun _ => ?_⟩
    · simp only [stepLoopAux, he]
      rw [hout]
      congr 2
      omega
    · have h3 := hpre.length_le
      simp at h3 ⊢
      omega

theorem graphInvoke_growth (planner : List Turn → Except String PlannerStep)
    (reg : ToolRegistry) (limit : Nat) (hl : 0 < limit) (initial result : List Turn)
    (h : graphInvoke planner reg limit initial = Except.ok result) :
    initial <+: result ∧ initial.length < result.length := by
  unfold graphInvoke at h
  cases hs : stepLoopAux planner reg limit initial 0 with
  | error e => rw [hs] at h; exact absurd h (by simp)
  | ok p =>
    rw [hs] at h
    obtain ⟨rfl⟩ : p.1 = result := by simpa using h
    have h2 := stepLoopAux_growth planner reg limit initial 0 p.1 p.2 (by rw [hs])
    exact ⟨h2.1, h2.2 hl⟩

/-! ## Claim C1 -/

/-- C1: for any planner behaviour that never emits a final answer, the Step-Loop
run with the default limit of 60 terminates in exactly 60 Think/Act/Observe
cycles, and a job run through it returns normally with the content of the last
turn of the produced sequence (the most recent message) rather than raising an
error. -/
theorem claim_c1_step_limit (planner : List Turn → Except String PlannerStep)
    (reg : ToolRegistry)
    (hp : ∀ ts, ∃ t reqs, planner ts = Except.ok (PlannerStep.toolCalls t reqs)) :
    (∀ initial : List Turn, ∃ turns : List Turn,
        stepLoopAux planner reg 60 initial 0 = Except.ok (turns, 60)
        ∧ initial <+: turns ∧ initial.length < turns.length)
    ∧ ∀ (store : MemoryStore) (userText : String),
        ∃ (turns : List Turn) (last : Turn) (store2 : MemoryStore),
          graphInvoke planner reg 60 (jobInput store userText) = Except.ok turns
          ∧ turns.getLast? = some last
          ∧ runJob userText (graphInvoke planner reg 60) store =
              Except.ok (store2, last.content) := by
  constructor
  · intro initial
    obtain ⟨out, hout, hpre, hlen⟩ := stepLoopAux_no_final planner reg hp 60 initial 0
    exact ⟨out, by simpa using hout, hpre, hlen (by omega)⟩
  · intro store userText
    obtain ⟨out, hout, hpre, hlen⟩ :=
      stepLoopAux_no_final planner reg hp 60 (jobInput store userText) 0
    have hg : graphInvoke planner reg 60 (jobInput store userText) = Except.ok out := by
      unfold graphInvoke
      rw [show stepLoopAux planner reg 60 (jobInput store userText) 0 =
        Except.ok (out, 60) from by simpa using hout]
    have hne : out ≠ [] := by
      have := hlen (by omega)
      intro hnil
      rw [hnil] at this
      simp at this
    obtain ⟨last, hlast⟩ : ∃ last, out.getLast? = some last := by
      cases ho : out.getLast? with
      | none => exact absurd ( List.getLast?_eq_none_iff.mp ho) hne
      | some l => exact ⟨l, rfl⟩
    refine ⟨out, last,
      (if 0 < (out.drop (MemoryStore.getMessages store).length).length then
          MemoryStore.addMessages store (out.drop (MemoryStore.getMessages store).length)
        else store), hg, hlast, ?_⟩
    simp only [runJob]
    rw [show graphInvoke planner reg 60
        (store.getMessages ++ [⟨Role.user, userText⟩]) = Except.ok out from hg]
    dsimp only
    rw [hlast]

/-- Witness for C1: the concrete always-tool-calling planner with an empty
registry. -/
theorem claim_c1_step_limit_witness :
    ∃ turns : List Turn,
      stepLoopAux loopingPlanner [] 60 [⟨Role.user, "hi"⟩] 0 = Except.ok (turns, 60)
      ∧ [(⟨Role.user, "hi"⟩ : Turn)] <+: turns
      ∧ ([(⟨Role.user, "hi"⟩ : Turn)]).length < turns.length :=
  (claim_c1_step_limit loopingPlanner []
    (fun _ => ⟨"investigating", [⟨"browser_goto", "url"⟩], rfl⟩)).1 [⟨Role.user, "hi"⟩]

/-! ## Claim C5 -/

/-- C5: a successful job performs exactly one append (in particular every job run
through the Step-Loop, whose result strictly extends its input); a job whose graph
invocation throws performs zero appends, the error propagates out of `runJob`, and
the CLI handler leaves the store exactly as it was, reporting the error. -/
theorem claim_c5_append_atomicity (g : List Turn → Except String (List Turn))
    (store : MemoryStore) (userText : String) :
    (∀ result, g (jobInput store userText) = Except.ok result →
      MemoryStore.getMessageCount store < result.length →
      runJobAppendCalls userText g store = 1)
    ∧ (∀ (planner : List Turn → Except String PlannerStep) (reg : ToolRegistry) result,
        graphInvoke planner reg 60 (jobInput store userText) = Except.ok result →
        runJobAppendCalls userText (graphInvoke planner reg 60) store = 1)
    ∧ ∀ e, g (jobInput store userText) = Except.error e →
        runJobAppendCalls userText g store = 0
        ∧ runJob userText g store = Except.error e
        ∧ (trimChars userText.data = userText.data →
           userText.data ≠ [] →
           userText.data ≠ "/clear".data → userText.data ≠ "/reset".data →
           userText.data ≠ "/memory".data → userText.data ≠ "/stats".data →
           cliHandleLine g store userText = (store, ["Job error: " ++ e])) := by
  have hone : ∀ result, g (jobInput store userText) = Except.ok result →
      MemoryStore.getMessageCount store < result.length →
      runJobAppendCalls userText g store = 1 := by
    intro result hok hlen
    simp only [runJobAppendCalls]
    rw [hok]
    dsimp only
    rw [if_pos]
    simp [MemoryStore.getMessageCount, MemoryStore.getMessages] at hlen ⊢
    omega
  refine ⟨hone, ?_, ?_⟩
  · intro planner reg result hok
    have hgrow := graphInvoke_growth planner reg 60 (by omega) _ result hok
    have hlen : MemoryStore.getMessageCount store < result.length := by
      have : (jobInput store userText).length =
          MemoryStore.getMessageCount store + 1 := by
        simp [jobInput, MemoryStore.getMessageCount, MemoryStore.getMessages]
      omega
    exact
      (fun h0 => by
        simp only [runJobAppendCalls]
        rw [hok]
        dsimp only
        rw [if_pos]
        simp [MemoryStore.getMessageCount, MemoryStore.getMessages] at h0 ⊢
        omega) hlen
  · intro e herr
    refine ⟨?_, ?_, ?_⟩
    · simp only [runJobAppendCalls]
      rw [herr]
    · simp only [runJob, jobInput] at *
      rw [herr]
    · intro htrim hne h1 h2 h3 h4
      simp only [cliHandleLine]
      rw [htrim]
      rw [if_neg hne, if_neg (by tauto), if_neg (by tauto)]
      have hmk : String.mk userText.data = userText := by cases userText; rfl
      rw [hmk]
      have : runJob userText g store = Except.error e := by
        simp only [runJob, jobInput] at *
        rw [herr]
      rw [this]

/-- Witness for C5: one append on a successful concrete job; zero appends, the
propagated error and an untouched store on a throwing one. -/
theorem claim_c5_append_atomicity_witness :
    runJobAppendCalls "hello" echoGraph (MemoryStore.new 50) = 1
    ∧ runJobAppendCalls "hello" boomGraph (MemoryStore.new 50) = 0
    ∧ cliHandleLine boomGraph (MemoryStore.new 50) "hello" =
        (MemoryStore.new 50, ["Job error: boom"]) := by
  have h1 := (claim_c5_append_atomicity echoGraph (MemoryStore.new 50) "hello").1
    ([⟨Role.user, "hello"⟩, ⟨Role.assistant, "done"⟩]) rfl (by decide)
  have h2 := (claim_c5_append_atomicity boomGraph (MemoryStore.new 50) "hello").2.2
    "boom" rfl
  exact ⟨h1, h2.1, h2.2.2 (by decide) (by decide) (by decide) (by decide)
    (by decide) (by decide)⟩


/-! ## Session registry lemmas -/

theorem lookup_setSession_ne (st : Sessions) (id1 id2 : Nat) (s : UserSession)
    (h : id1 ≠ id2) : List.lookup id1 (setSession st id2 s) = List.lookup id1 st := by
  have hb : (id1 == id2) = false := beq_eq_false_iff_ne.mpr h
  induction st with
  | nil => simp [setSession, List.lookup, hb]
  | cons kv rest ih =>
    obtain ⟨k, v⟩ := kv
    by_cases hk : k = id2
    · subst hk
      simp [setSession, List.lookup, hb]
    · simp only [setSession, if_neg hk, List.lookup]
      cases hik : id1 == k with
      | true => rfl
      | false => exact ih

theorem lookup_getOrCreate_ne (st : Sessions) (id1 id2 : Nat) (h : id1 ≠ id2) :
    List.lookup id1 (getOrCreateSession st id2).2 = List.lookup id1 st := by
  have hb : (id1 == id2) = false := beq_eq_false_iff_ne.mpr h
  unfold getOrCreateSession
  cases hl : List.lookup id2 st with
  | some s => rfl
  | none => simp [List.lookup, hb]

theorem handleStart_fst (text : String) (acc : Sessions × List String) :
    (handleStart text acc).1 = acc.1 := by
  unfold handleStart; split <;> rfl

theorem handleHelp_fst (text : String) (acc : Sessions × List String) :
    (handleHelp text acc).1 = acc.1 := by
  unfold handleHelp; split <;> rfl

theorem lookup_handleClear_ne (chatId : Nat) (text : String)
    (acc : Sessions × List String) (id1 : Nat) (h : id1 ≠ chatId) :
    List.lookup id1 (handleClear chatId text acc).1 = List.lookup id1 acc.1 := by
  unfold handleClear
  split
  · simp [lookup_setSession_ne _ _ _ _ h, lookup_getOrCreate_ne _ _ _ h]
  · rfl

theorem lookup_handleMemory_ne (chatId : Nat) (text : String)
    (acc : Sessions × List String) (id1 : Nat) (h : id1 ≠ chatId) :
    List.lookup id1 (handleMemory chatId text acc).1 = List.lookup id1 acc.1 := by
  unfold handleMemory
  split
  · simp [lookup_getOrCreate_ne _ _ _ h]
  · rfl

theorem lookup_handleMessage_ne (g : List Turn → Except String (List Turn))
    (chatId : Nat) (text : String) (acc : Sessions × List String) (id1 : Nat)
    (h : id1 ≠ chatId) :
    List.lookup id1 (handleMessage g chatId text acc).1 = List.lookup id1 acc.1 := by
  unfold handleMessage
  split
  · rfl
  · split
    · rfl
    · cases hr : runJob text g (getOrCreateSession acc.1 chatId).1.memoryStore with
      | ok p =>
        obtain ⟨store2, out⟩ := p
        simp [hr, lookup_setSession_ne _ _ _ _ h, lookup_getOrCreate_ne _ _ _ h]
      | error e => simp [hr, lookup_getOrCreate_ne _ _ _ h]

/-! ## Claim C6 -/

/-- C6: `getOrCreateSession` returns the existing session when present and
otherwise creates exactly one fresh session with an empty store of capacity 50;
repeated resolution of the same identity yields the same session; resolving or
dispatching for one identity never touches another identity's session entry; and
the planner input of a job contains only the session's own stored turns plus the
new user turn. -/
theorem claim_c6_session_isolation :
    (∀ (st : Sessions) (userId : Nat) (s : UserSession),
        List.lookup userId st = some s → getOrCreateSession st userId = (s, st))
    ∧ (∀ (st : Sessions) (userId : Nat),
        List.lookup userId st = none →
          (getOrCreateSession st userId).1 = ⟨MemoryStore.new 50⟩
          ∧ List.lookup userId (getOrCreateSession st userId).2 =
              some ⟨MemoryStore.new 50⟩)
    ∧ (∀ (st : Sessions) (userId : Nat),
        (getOrCreateSession (getOrCreateSession st userId).2 userId).1 =
          (getOrCreateSession st userId).1)
    ∧ (∀ (st : Sessions) (id1 id2 : Nat), id1 ≠ id2 →
        List.lookup id1 (getOrCreateSession st id2).2 = List.lookup id1 st)
    ∧ (∀ (g : List Turn → Except String (List Turn)) (st : Sessions)
          (id1 id2 : Nat) (text : String), id1 ≠ id2 →
        List.lookup id1 (telegramDispatch g st id2 text).1 = List.lookup id1 st)
    ∧ (∀ (st : Sessions) (userId : Nat) (text : String) (t : Turn),
        t ∈ jobInput (getOrCreateSession st userId).1.memoryStore text →
          t ∈ MemoryStore.getMessages (getOrCreateSession st userId).1.memoryStore
          ∨ t = ⟨Role.user, text⟩) := by
  refine ⟨?_, ?_, ?_, lookup_getOrCreate_ne, ?_, ?_⟩
  · intro st userId s h
    simp [getOrCreateSession, h]
  · intro st userId h
    simp [getOrCreateSession, h, List.lookup]
  · intro st userId
    unfold getOrCreateSession
    cases hl : List.lookup userId st with
    | some s => simp [hl]
    | none => simp [hl, List.lookup]
  · intro g st id1 id2 text h
    unfold telegramDispatch
    rw [lookup_handleMessage_ne _ _ _ _ _ h, lookup_handleMemory_ne _ _ _ _ h,
      lookup_handleClear_ne _ _ _ _ h, handleHelp_fst, handleStart_fst]
  · intro st userId text t ht
    simp only [jobInput] at ht
    rcases List.mem_append.mp ht with h1 | h1
    · exact Or.inl h1
    · exact Or.inr (by simpa using h1)

/-- Witness for C6 at concrete identities 1 and 2. -/
theorem claim_c6_session_isolation_witness :
    List.lookup 1 (getOrCreateSession ([] : Sessions) 2).2 = List.lookup 1 ([] : Sessions) :=
  claim_c6_session_isolation.2.2.2.1 [] 1 2 (by decide)

/-! ## Claim C2 -/

/-- C2 counterexample: the claim says no tool invocation ever propagates a thrown
exception into the Step-Loop, but `browser_right_click` and `browser_goto` have no
try/catch: a click timeout or a failed navigation escapes the handler as a thrown
exception (`Except.error`), not as a returned observation string. -/
theorem claim_c2_counterexample :
    rightClickTool timeoutBehavior "#menu" = Except.error "Timeout 15000ms exceeded."
    ∧ gotoTool timeoutBehavior "https://example.com" =
        Except.error "net::ERR_NAME_NOT_RESOLVED" :=
  ⟨rfl, rfl⟩

/-- C2 (amended): `browser_click` does satisfy the containment property — once the
browser handle is acquired, every failure of its page operations is caught and
converted into a returned error string, never a thrown exception. -/
theorem claim_c2_click_containment (pb : PageBehavior) (selector : String)
    (h : pb.ensure = Except.ok ()) :
    ∃ msg, clickTool pb selector = Except.ok msg := by
  cases hb : clickTryBody pb selector with
  | ok msg => exact ⟨msg, by simp [clickTool, h, hb, Bind.bind, Except.bind, pure, Except.pure]⟩
  | error e =>
    exact ⟨"ERROR clicking " ++ selector ++ ": " ++ e ++
      ". Try using browser_find_by_text to find the element by its text content, or browser_find_links to see all clickable links.",
      by simp [clickTool, h, hb, Bind.bind, Except.bind, pure, Except.pure]⟩

/-- Witness for C2: the containment theorem at the timing-out behaviour. -/
theorem claim_c2_click_containment_witness :
    ∃ msg, clickTool timeoutBehavior "#menu" = Except.ok msg :=
  claim_c2_click_containment timeoutBehavior "#menu" rfl

/-! ## Claim C9 -/

/-- C9 counterexample: the claim says startup never fails for this reason when the
credential is present, but `createLLM` tests JS truthiness, so a present-but-empty
`OPENAI_API_KEY` still refuses to start. -/
theorem claim_c9_counterexample :
    (envEmptyKey.openaiApiKeyVar).isSome = true
    ∧ mainStartup envEmptyKey = Except.error openAIKeyMissingMsg :=
  ⟨rfl, rfl⟩

/-- C9 (amended): with the credential absent — or present but empty — the process
refuses to start before reaching the input-accepting state, with a message
containing the remediation instructions; with a non-empty credential present,
startup never fails for this reason. -/
theorem claim_c9_startup_credential :
    (∀ env : Env, env.openaiApiKeyVar = none →
        createLLM env = Except.error openAIKeyMissingMsg
        ∧ mainStartup env = Except.error openAIKeyMissingMsg)
    ∧ (∀ env : Env, env.openaiApiKeyVar = some "" →
        mainStartup env = Except.error openAIKeyMissingMsg)
    ∧ (∀ (env : Env) (k : String), env.openaiApiKeyVar = some k → k ≠ "" →
        ∃ m, mainStartup env = Except.ok m)
    ∧ hasSub "Create a .env file".data openAIKeyMissingMsg.data = true := by
  have hllm : ∀ env : Env, env.openaiApiKeyVar = none →
      createLLM env = Except.error openAIKeyMissingMsg := by
    intro env h
    simp [createLLM, h]
  refine ⟨?_, ?_, ?_, by decide⟩
  · intro env h
    refine ⟨hllm env h, ?_⟩
    unfold mainStartup cliStart telegramStart
    rw [hllm env h]
    cases env.telegramBotTokenVar with
    | none => rfl
    | some tok =>
      dsimp only
      split <;> rfl
  · intro env h
    have he : createLLM env = Except.error openAIKeyMissingMsg := by
      simp [createLLM, h]
    unfold mainStartup cliStart telegramStart
    rw [he]
    cases env.telegramBotTokenVar with
    | none => rfl
    | some tok =>
      dsimp only
      split <;> rfl
  · intro env k h hk
    have he : createLLM env = Except.ok ⟨"gpt-4o"⟩ := by
      simp [createLLM, h, hk]
    unfold mainStartup cliStart telegramStart
    rw [he]
    cases env.telegramBotTokenVar with
    | none => exact ⟨_, rfl⟩
    | some tok =>
      dsimp only
      by_cases ht : tok = ""
      · rw [if_pos ht]; exact ⟨_, rfl⟩
      · rw [if_neg ht]; exact ⟨_, rfl⟩

/-- Witness for C9: startup refuses at an absent key and succeeds at a usable key. -/
theorem claim_c9_startup_credential_witness :
    (createLLM envNoKey = Except.error openAIKeyMissingMsg
      ∧ mainStartup envNoKey = Except.error openAIKeyMissingMsg)
    ∧ ∃ m, mainStartup envWithKey = Except.ok m :=
  ⟨claim_c9_startup_credential.1 envNoKey rfl,
    claim_c9_startup_credential.2.2.1 envWithKey "sk-test" rfl (by decide)⟩

/-! ## Claim C10 -/

/-- C10 counterexample: the claim says every `/`-message that is not one of the
six recognized commands is silently ignored with no reply, but the command
handlers are registered with unanchored regexps: "/starting" is not a recognized
command yet still triggers the `/start` handler and gets the welcome reply. -/
theorem claim_c10_counterexample :
    startsWithSlash ("/starting").data = true
    ∧ ("/starting" ∉ (["/start", "/help", "/clear", "/reset", "/memory", "/stats"] : List String))
    ∧ (telegramDispatch boomGraph [] 1 "/starting").2 = [telegramWelcome] :=
  ⟨by decide, by decide, by decide⟩

/-- C10 (amended): a `/`-message containing none of the six command substrings is
truly silently ignored — session map unchanged and no reply; and a CLI line that
is empty after trimming produces no job and no state change. -/
theorem claim_c10_unknown_commands :
    (∀ (g : List Turn → Except String (List Turn)) (st : Sessions) (chatId : Nat)
        (text : String),
      startsWithSlash text.data = true →
      hasSub "/start".data text.data = false →
      hasSub "/help".data text.data = false →
      hasSub "/clear".data text.data = false →
      hasSub "/reset".data text.data = false →
      hasSub "/memory".data text.data = false →
      hasSub "/stats".data text.data = false →
      telegramDispatch g st chatId text = (st, []))
    ∧ (∀ (g : List Turn → Except String (List Turn)) (store : MemoryStore)
        (line : String),
      trimChars line.data = [] → cliHandleLine g store line = (store, [])) := by
  constructor
  · intro g st chatId text hslash h1 h2 h3 h4 h5 h6
    simp [telegramDispatch, handleStart, handleHelp, handleClear, handleMemory,
      handleMessage, hslash, h1, h2, h3, h4, h5, h6]
  · intro g store line h
    simp [cliHandleLine, h]

/-- Witness for C10 at a concrete unknown command and an all-blank CLI line. -/
theorem claim_c10_unknown_commands_witness :
    telegramDispatch boomGraph [] 1 "/foo" = ([], [])
    ∧ cliHandleLine boomGraph (MemoryStore.new 50) "   " = (MemoryStore.new 50, []) :=
  ⟨claim_c10_unknown_commands.1 boomGraph [] 1 "/foo" (by decide) (by decide)
      (by decide) (by decide) (by decide) (by decide) (by decide),
    claim_c10_unknown_commands.2 boomGraph (MemoryStore.new 50) "   " (by decide)⟩

/-! ## Claim C7 -/

/-- C7 counterexample: the claim says at most one job per identity is ever in
flight, but two task messages from chat 1 — the second arriving while the first
is still suspended in `graph.invoke` — leave two jobs in flight against the same
session, with nothing queued or rejected. -/
theorem claim_c7_counterexample :
    inFlightFor (runEvents pureEchoGraph
      [BotEvent.arrive 1 "task one", BotEvent.arrive 1 "task two"] ⟨[], []⟩) 1 = 2 := by
  decide

/-- C7 (amended): the message handler has no per-identity queue, lock or
rejection: every non-command, non-empty message starts a job immediately,
incrementing the number of in-flight jobs for that identity regardless of how
many are already running against the same store. -/
theorem claim_c7_no_serialization (st : BotState) (chatId : Nat) (text : String)
    (h1 : startsWithSlash text.data = false) (h2 : trimChars text.data ≠ []) :
    inFlightFor (arriveStep st chatId text) chatId = inFlightFor st chatId + 1 := by
  simp [arriveStep, inFlightFor, h1, h2, List.filter_append]

/-- Witness for C7: a second message for chat 1 while one job is already in
flight yields two in-flight jobs. -/
theorem claim_c7_no_serialization_witness :
    inFlightFor (arriveStep ⟨[], [⟨1, 0, [⟨Role.user, "task one"⟩]⟩]⟩ 1 "task two") 1 =
      inFlightFor (⟨[], [⟨1, 0, [⟨Role.user, "task one"⟩]⟩]⟩ : BotState) 1 + 1 :=
  claim_c7_no_serialization ⟨[], [⟨1, 0, [⟨Role.user, "task one"⟩]⟩]⟩ 1 "task two"
    (by decide) (by decide)

/-! ## Chunking lemmas -/

theorem dotChunksGo_flatten (limit : Nat) (hl : 0 < limit) :
    ∀ (fuel : Nat) (s : List Char), s.length ≤ fuel →
      (dotChunksGo limit fuel s).flatten = s.filter (fun c => !isLineTerminator c) := by
  intro fuel
  induction fuel with
  | zero =>
    intro s hs
    have hnil : s = [] := List.eq_nil_of_length_eq_zero (by omega)
    subst hnil
    simp [dotChunksGo]
  | succ fuel ih =>
    intro s hs
    cases s with
    | nil => simp [dotChunksGo]
    | cons c rest =>
      by_cases hc : isLineTerminator c = true
      · rw [show dotChunksGo limit (fuel + 1) (c :: rest) = dotChunksGo limit fuel rest from by
          simp [dotChunksGo, hc]]
        rw [ih rest (by simp at hs; omega)]
        simp [List.filter_cons, hc]
      · have hcb : isLineTerminator c = false := by simpa using hc
        set p : Char → Bool := fun x => !isLineTerminator x with hp
        set chunk : List Char := (c :: rest.takeWhile p).take limit with hchunk
        have hstep : dotChunksGo limit (fuel + 1) (c :: rest) =
            chunk :: dotChunksGo limit fuel ((c :: rest).drop chunk.length) := by
          simp [dotChunksGo, hcb, hchunk]
        have hpc : p c = true := by simp [hp, hcb]
        have hrun : (c :: rest).takeWhile p = c :: rest.takeWhile p := by
          simp [List.takeWhile_cons, hpc]
        have hpre : chunk <+: (c :: rest) := by
          have h5 := List.takeWhile_prefix p (l := c :: rest)
          rw [hrun] at h5
          exact ( List.take_prefix _ _).trans h5
        have hlen1 : 1 ≤ chunk.length := by
          rw [hchunk]
          simp [List.length_take]
          omega
        have hmem : ∀ x ∈ chunk, p x = true := by
          intro x hx
          have hx2 : x ∈ c :: rest.takeWhile p := List.take_subset _ _ hx
          rw [← hrun] at hx2
          exact List.mem_takeWhile_imp hx2
        have hdecomp : chunk ++ (c :: rest).drop chunk.length = c :: rest := by
          have hd := List.take_append_drop chunk.length (c :: rest)
          rw [← List.prefix_iff_eq_take.mp hpre] at hd
          exact hd
        have hdroplen : ((c :: rest).drop chunk.length).length ≤ fuel := by
          simp only [List.length_drop]
          simp at hs
          simp
          omega
        rw [hstep]
        rw [List.flatten_cons]
        rw [ih _ hdroplen]
        conv_rhs => rw [← hdecomp]
        rw [List.filter_append, List.filter_eq_self.mpr hmem]

theorem dotChunksGo_bounds (limit : Nat) (hl : 0 < limit) :
    ∀ (fuel : Nat) (s : List Char), ∀ ch ∈ dotChunksGo limit fuel s,
      1 ≤ ch.length ∧ ch.length ≤ limit := by
  intro fuel
  induction fuel with
  | zero => intro s ch hch; simp [dotChunksGo] at hch
  | succ fuel ih =>
    intro s ch hch
    cases s with
    | nil => simp [dotChunksGo] at hch
    | cons c rest =>
      by_cases hc : isLineTerminator c = true
      · rw [show dotChunksGo limit (fuel + 1) (c :: rest) = dotChunksGo limit fuel rest from by
          simp [dotChunksGo, hc]] at hch
        exact ih rest ch hch
      · have hcb : isLineTerminator c = false := by simpa using hc
        set p : Char → Bool := fun x => !isLineTerminator x with hp
        set chunk : List Char := (c :: rest.takeWhile p).take limit with hchunk
        rw [show dotChunksGo limit (fuel + 1) (c :: rest) =
            chunk :: dotChunksGo limit fuel ((c :: rest).drop chunk.length) from by
          simp [dotChunksGo, hcb, hchunk]] at hch
        rcases List.mem_cons.mp hch with hch | hch
        · subst hch
          rw [hchunk]
          simp [List.length_take]
          omega
        · exact ih _ ch hch

theorem markChunks_mem (chs : List (List Char)) :
    ∀ m ∈ markChunks chs, ∃ ch ∈ chs, m.length ≤ ch.length + 18 := by
  induction chs with
  | nil => intro m hm; simp [markChunks] at hm
  | cons c rest ih =>
    intro m hm
    cases rest with
    | nil =>
      simp only [markChunks, List.mem_singleton] at hm
      subst hm
      have h1 : (String.mk c).length = c.length := rfl
      exact ⟨c, by simp, by omega⟩
    | cons c2 rest2 =>
      rw [show markChunks (c :: c2 :: rest2) =
          (String.mk c ++ continuationMark) :: markChunks (c2 :: rest2) from rfl] at hm
      rcases List.mem_cons.mp hm with hm | hm
      · subst hm
        refine ⟨c, by simp, ?_⟩
        rw [String.length_append, show (String.mk c).length = c.length from rfl,
          show continuationMark.length = 18 from by decide]
      · obtain ⟨ch, hmem, hb⟩ := ih m hm
        exact ⟨ch, List.mem_cons_of_mem _ hmem, hb⟩

theorem filter_replicate_of_pos (n : Nat) (a : Char) (p : Char → Bool) (h : p a = true) :
    List.filter p (List.replicate n a) = List.replicate n a :=
  List.filter_eq_self.mpr (fun b hb => by rw [ List.eq_of_mem_replicate hb]; exact h)

/-! ## Claim C8 -/

/-- C8 counterexample: on a 4099-character response containing a newline, the
splitting path runs (the length exceeds 4096), yet the concatenation of the
chunks produced by `response.match(/.{1,4000}/g)` is not the original response —
the regexp dot skips line terminators, so the newline is lost. -/
theorem claim_c8_counterexample :
    4096 < longNewlineResponse.length
    ∧ (dotChunks longNewlineResponse.data).flatten ≠ longNewlineResponse.data := by
  constructor
  · rw [show longNewlineResponse.length =
      (List.replicate 4097 'a' ++ ['\n', 'b']).length from rfl]
    simp only [List.length_append, List.length_replicate, List.length_cons, List.length_nil]
    omega
  · intro heq
    have hfl : (dotChunks longNewlineResponse.data).flatten =
        longNewlineResponse.data.filter (fun c => !isLineTerminator c) := by
      unfold dotChunks
      exact dotChunksGo_flatten 4000 (by omega) _ _ le_rfl
    rw [hfl] at heq
    rw [show longNewlineResponse.data = List.replicate 4097 'a' ++ ['\n', 'b'] from rfl] at heq
    rw [List.filter_append, filter_replicate_of_pos _ _ _ (by decide),
      show List.filter (fun c => !isLineTerminator c) ['\n', 'b'] = ['b'] from by decide] at heq
    have hlen := congrArg List.length heq
    simp only [List.length_append, List.length_replicate, List.length_cons,
      List.length_nil] at hlen
    omega

/-- C8 (amended): for every response over the 4096-character limit, every sent
message (chunk plus continuation marker) fits within the limit, each raw chunk
has between 1 and 4000 characters, and the in-order concatenation of the chunks
reproduces the response with its line-terminator characters removed — hence
exactly the original text whenever the response contains no line terminator. -/
theorem claim_c8_chunking (response : String) (hlong : 4096 < response.length) :
    (∀ m ∈ splitReply response, m.length ≤ 4096)
    ∧ (dotChunks response.data).flatten =
        response.data.filter (fun c => !isLineTerminator c)
    ∧ (response.data.all (fun c => !isLineTerminator c) = true →
        (dotChunks response.data).flatten = response.data)
    ∧ (∀ ch ∈ dotChunks response.data, 1 ≤ ch.length ∧ ch.length ≤ 4000) := by
  have hfl : (dotChunks response.data).flatten =
      response.data.filter (fun c => !isLineTerminator c) := by
    unfold dotChunks
    exact dotChunksGo_flatten 4000 (by omega) _ _ le_rfl
  have hbounds : ∀ ch ∈ dotChunks response.data, 1 ≤ ch.length ∧ ch.length ≤ 4000 := by
    intro ch hch
    exact dotChunksGo_bounds 4000 (by omega) response.data.length response.data ch hch
  refine ⟨?_, hfl, ?_, hbounds⟩
  · intro m hm
    rw [splitReply, if_pos hlong] at hm
    obtain ⟨ch, hmem, hb⟩ := markChunks_mem (dotChunks response.data) m hm
    have := (hbounds ch hmem).2
    omega
  · intro hall
    rw [hfl]
    exact List.filter_eq_self.mpr ( List.all_eq_true.mp hall)

/-- Witness for C8 at the concrete over-limit response. -/
theorem claim_c8_chunking_witness :
    (∀ m ∈ splitReply longNewlineResponse, m.length ≤ 4096)
    ∧ (dotChunks longNewlineResponse.data).flatten =
        longNewlineResponse.data.filter (fun c => !isLineTerminator c)
    ∧ (longNewlineResponse.data.all (fun c => !isLineTerminator c) = true →
        (dotChunks longNewlineResponse.data).flatten = longNewlineResponse.data)
    ∧ (∀ ch ∈ dotChunks longNewlineResponse.data, 1 ≤ ch.length ∧ ch.length ≤ 4000) :=
  claim_c8_chunking longNewlineResponse (by
    rw [show longNewlineResponse.length =
      (List.replicate 4097 'a' ++ ['\n', 'b']).length from rfl]
    simp only [List.length_append, List.length_replicate, List.length_cons, List.length_nil]
    omega)
